import Mathlib

/-
Verification of the candlestick backtest engine of Python-Algo-Bot.

The embedding models prices as rationals. A pandas DataFrame of OHLCV
rows becomes a `List Candle`; positional indices stand for the (strictly
increasing, unique) timestamp index, so `df.index[i]`, `df.loc[ts]` and
`df.index.get_loc(ts)` are all the position `i`. Pandas NaN cells (the
unwarmed ATR window) become `Option ℚ`. The functions below are
translated from src/check_accuracy.py, src/optimize_fixed.py and
src/finalBot.py.
-/

/-- One OHLCV row. Field names follow the locals `o, h, l, c` that the
pattern detectors bind from `row["open"], row["high"], row["low"],
row["close"]`. -/
structure Candle where
  o : ℚ
  h : ℚ
  l : ℚ
  c : ℚ
  volume : ℚ
deriving DecidableEq, Repr, Inhabited

/-- The data-model invariant of a candle:
`low ≤ min(open, close) ≤ max(open, close) ≤ high`. -/
def validCandle (cd : Candle) : Bool :=
  decide (cd.l ≤ cd.o) && decide (cd.l ≤ cd.c) && decide (cd.o ≤ cd.h) && decide (cd.c ≤ cd.h)

namespace Indicators

/-- True range at row `i`, from `calculate_atr` (identical in
check_accuracy.py and optimize_fixed.py):
`hl = high - low`, `hc = |high - close.shift(1)|`, `lc = |low - close.shift(1)|`,
`tr = max(hl, hc, lc)`. At row 0 the shifted close is NaN and the pandas
row-wise max skips NaN, leaving `high - low`. -/
def trAt (df : List Candle) (i : ℕ) : ℚ :=
  let row := df.getD i default
  if i = 0 then row.h - row.l
  else
    let prev := df.getD (i - 1) default
    max (row.h - row.l) (max |row.h - prev.c| |row.l - prev.c|)

/-- ATR at row `i`: `tr.rolling(window=period).mean()` — `none` (NaN)
until the window holds `period` true ranges, then their mean. -/
def atrAt (period : ℕ) (df : List Candle) (i : ℕ) : Option ℚ :=
  if i + 1 < period then none
  else some ((((List.range period).map fun j => trAt df (i - j)).sum) / (period : ℚ))

/-- The whole true-range series of a frame. -/
def trSeries (df : List Candle) : List ℚ :=
  (List.range df.length).map (trAt df)

/-- The whole ATR series of a frame. -/
def atrSeries (period : ℕ) (df : List Candle) : List (Option ℚ) :=
  (List.range df.length).map (atrAt period df)

/-- The boolean test `use_atr and atr > 0` applied to a possibly-NaN ATR
cell: a NaN (`none`) compares false. -/
def atrPos : Option ℚ → Bool
  | some a => decide (0 < a)
  | none => false

/-- Tail of `ewm(span, adjust=False).mean()` after the seed: each output is
`x * k + prev * (1 - k)`. -/
def ewmaAcc (k : ℚ) : ℚ → List ℚ → List ℚ
  | _, [] => []
  | prev, x :: xs => (x * k + prev * (1 - k)) :: ewmaAcc k (x * k + prev * (1 - k)) xs

/-- `series.ewm(span, adjust=False).mean()` with smoothing factor `k`:
seeded from the first value, then the recursive update. -/
def ewma (k : ℚ) : List ℚ → List ℚ
  | [] => []
  | x :: xs => x :: ewmaAcc k x xs

/-- EMA over a series with pandas' span parametrisation `k = 2/(span+1)`. -/
def emaSpan (span : ℕ) (xs : List ℚ) : List ℚ :=
  ewma (2 / ((span : ℚ) + 1)) xs

/-- `compute_emas`: the fast and the slow EMA, two independent EMAs over
the same close series. -/
def compute_emas (fast slow : ℕ) (df : List Candle) : List ℚ × List ℚ :=
  (emaSpan fast (df.map Candle.c), emaSpan slow (df.map Candle.c))

/-- The forward exit scan shared by both backtests: starting at row `j`
with `fuel` rows left in the window (`df.iloc[i+1 : i+100]` passes
`j = i + 1`, `fuel = 99`), test the take-profit touch first, then the
stop-loss touch, and return the first row where one holds together with
`hit_tp`; `none` when the slice is exhausted. -/
def scan_exit (df : List Candle) (takeHit stopHit : Candle → Bool) : ℕ → ℕ → Option (ℕ × Bool)
  | _, 0 => none
  | j, fuel + 1 =>
    if j < df.length then
      let row := df.getD j default
      if takeHit row then some (j, true)
      else if stopHit row then some (j, false)
      else scan_exit df takeHit stopHit (j + 1) fuel
    else none

end Indicators

namespace CheckAccuracy

/-- `is_bearish_hammer` of check_accuracy.py. -/
def is_bearish_hammer (row : Candle) : Bool :=
  if row.c ≥ row.o then false
  else
    let body := row.o - row.c
    let upper_shadow := row.h - row.o
    let lower_shadow := row.c - row.l
    if lower_shadow > 0.65 * body then false
    else if upper_shadow < 1.5 * body then false
    else true

/-- `is_bullish_hammer` of check_accuracy.py. -/
def is_bullish_hammer (row : Candle) : Bool :=
  if row.c ≤ row.o then false
  else
    let body := row.c - row.o
    let upper_shadow := row.h - row.c
    let lower_shadow := row.o - row.l
    if upper_shadow > 0.65 * body then false
    else if lower_shadow < 1.5 * body then false
    else true

/-- The classification of one row: `some true` = Bullish, `some false` =
Bearish, `none` = neither (the order mirrors the `if buy_signal / elif
sell_signal` dispatch of the backtest loop). -/
def classify (row : Candle) : Option Bool :=
  if is_bullish_hammer row then some true
  else if is_bearish_hammer row then some false
  else none

/-- One simulated trade as appended by `backtest_vectorized` (timestamps
are positional indices). -/
structure Trade where
  entry_i : ℕ
  entry : ℚ
  exit_i : ℕ
  exit_price : ℚ
  isBuy : Bool
  profit : ℚ
  profit_pct : ℚ
  hit_tp : Bool
  sl : ℚ
  tp : ℚ
  candles_held : ℕ
deriving DecidableEq, Repr, Inhabited

/-- The body of `backtest_vectorized`'s loop at one index `i`: the loop
runs `for i in range(100, len(df))`, tests `buy_signal` then
`sell_signal`, sizes SL/TP from the ATR when `use_atr and atr > 0` and
from the fixed offsets otherwise, scans `df.iloc[i+1 : i+100]` for the
first touch, and appends a trade only when an exit was found. -/
def tradeAt (use_atr : Bool) (df : List Candle) (i : ℕ) : Option Trade :=
  if i < 100 then none
  else
    let row := df.getD i default
    if is_bullish_hammer row then
      let entry := row.c
      let a := Indicators.atrAt 14 df i
      let sl := if use_atr && Indicators.atrPos a then entry - 1 * a.getD 0 else entry - 5
      let tp := if use_atr && Indicators.atrPos a then entry + 2 * a.getD 0 else entry + 10
      match Indicators.scan_exit df (fun r => decide (r.h ≥ tp)) (fun r => decide (r.l ≤ sl))
          (i + 1) 99 with
      | some (eidx, hitTp) =>
        let exit_price := (df.getD eidx default).c
        let profit := if hitTp then exit_price - entry else -(entry - exit_price)
        some { entry_i := i, entry := entry, exit_i := eidx, exit_price := exit_price,
               isBuy := true, profit := profit, profit_pct := profit / entry * 100,
               hit_tp := hitTp, sl := sl, tp := tp, candles_held := eidx - i }
      | none => none
    else if is_bearish_hammer row then
      let entry := row.c
      let a := Indicators.atrAt 14 df i
      let sl := if use_atr && Indicators.atrPos a then entry + 2 * a.getD 0 else entry + 10
      let tp := if use_atr && Indicators.atrPos a then entry - 4 * a.getD 0 else entry - 20
      match Indicators.scan_exit df (fun r => decide (r.l ≤ tp)) (fun r => decide (r.h ≥ sl))
          (i + 1) 99 with
      | some (eidx, hitTp) =>
        let exit_price := (df.getD eidx default).c
        let profit := if hitTp then entry - exit_price else -(exit_price - entry)
        some { entry_i := i, entry := entry, exit_i := eidx, exit_price := exit_price,
               isBuy := false, profit := profit, profit_pct := profit / entry * 100,
               hit_tp := hitTp, sl := sl, tp := tp, candles_held := eidx - i }
      | none => none
    else none

/-- The trade list `backtest_vectorized` extracts from a frame. -/
def backtest_vectorized (use_atr : Bool) (df : List Candle) : List Trade :=
  (List.range df.length).filterMap (tradeAt use_atr df)

/-- The aggregate metrics of check_accuracy.py that the claims speak
about (the source's stats dict also carries further diagnostic fields). -/
structure Stats where
  total_trades : ℕ
  win_count : ℕ
  loss_count : ℕ
  win_rate : ℚ
  total_profit : ℚ
  profit_factor : ℚ
deriving DecidableEq, Repr, Inhabited

/-- The statistics block of `backtest_vectorized`: `none` for the empty
trade list (the source prints and returns `{}`); winners are trades with
`profit > 0`, losers those with `profit <= 0`, and
`profit_factor = winners.sum / |losers.sum|` only when there are losers
with a nonzero sum, else 0. -/
def stats (trades : List Trade) : Option Stats :=
  if trades.isEmpty then none
  else
    let winners := trades.filter fun t => decide (0 < t.profit)
    let losers := trades.filter fun t => decide (t.profit ≤ 0)
    let wsum := (winners.map fun t => t.profit).sum
    let lsum := (losers.map fun t => t.profit).sum
    some { total_trades := trades.length,
           win_count := winners.length,
           loss_count := losers.length,
           win_rate := if 0 < trades.length then
               (winners.length : ℚ) / (trades.length : ℚ) * 100 else 0,
           total_profit := (trades.map fun t => t.profit).sum,
           profit_factor := if 0 < losers.length ∧ lsum ≠ 0 then wsum / |lsum| else 0 }

/-- The columns `backtest_vectorized` requires. -/
def required_cols : List String := ["open", "high", "low", "close", "volume"]

/-- A raw input frame: its header and its rows. -/
structure Frame where
  cols : List String
  data : List Candle
deriving DecidableEq, Repr

/-- The input validation of `backtest_vectorized`: the one check the
source performs before computing — `all(col in df.columns for col in
required_cols)` — raising `ValueError` when a column is missing and
processing the rows otherwise. -/
def backtest_checked (use_atr : Bool) (f : Frame) : Except String (List Trade) :=
  if required_cols.all fun col => f.cols.contains col then
    Except.ok (backtest_vectorized use_atr f.data)
  else Except.error ("Missing required columns")

end CheckAccuracy

namespace OptimizeFixed

/-- `is_bearish_hammer(row, max_lower_shadow_factor, min_upper_shadow_*)`
of optimize_fixed.py, thresholds as parameters. -/
def is_bearish_hammer (maxLowerShadow minUpperShadow : ℚ) (row : Candle) : Bool :=
  if row.c ≥ row.o then false
  else
    let body := row.o - row.c
    let upper_shadow := row.h - row.o
    let lower_shadow := row.c - row.l
    if lower_shadow > maxLowerShadow * body then false
    else if upper_shadow < minUpperShadow * body then false
    else true

/-- `is_bullish_hammer(row, max_upper_shadow_factor, min_lower_shadow_*)`
of optimize_fixed.py; `backtest_with_params` passes the same
`(max_lower_shadow, min_upper_shadow)` pair to both detectors. -/
def is_bullish_hammer (maxUpperShadow minLowerShadow : ℚ) (row : Candle) : Bool :=
  if row.c ≤ row.o then false
  else
    let body := row.c - row.o
    let upper_shadow := row.h - row.c
    let lower_shadow := row.o - row.l
    if upper_shadow > maxUpperShadow * body then false
    else if lower_shadow < minLowerShadow * body then false
    else true

/-- One trade record of `backtest_with_params`: profit is the idealized
ATR-multiple fill, not a price delta. -/
structure OTrade where
  isBuy : Bool
  entry : ℚ
  profit : ℚ
  hit_tp : Bool
deriving DecidableEq, Repr, Inhabited

/-- The body of `backtest_with_params`'s loop at index `i`: unlike
check_accuracy.py there is no fixed-offset fallback — `if atr > 0` sizes
the trade and the `else: continue` skips the signal outright. -/
def tradeAt (buy_sl_mult buy_tp_mult sell_sl_mult sell_tp_mult
    max_lower_shadow min_upper_shadow : ℚ) (df : List Candle) (i : ℕ) : Option OTrade :=
  if i < 100 then none
  else
    let row := df.getD i default
    if is_bullish_hammer max_lower_shadow min_upper_shadow row then
      match Indicators.atrAt 14 df i with
      | some a =>
        if 0 < a then
          let entry := row.c
          let sl := entry - buy_sl_mult * a
          let tp := entry + buy_tp_mult * a
          match Indicators.scan_exit df (fun r => decide (r.h ≥ tp))
              (fun r => decide (r.l ≤ sl)) (i + 1) 99 with
          | some (_, hitTp) =>
            some { isBuy := true, entry := entry,
                   profit := if hitTp then buy_tp_mult * a else -(buy_sl_mult * a),
                   hit_tp := hitTp }
          | none => none
        else none
      | none => none
    else if is_bearish_hammer max_lower_shadow min_upper_shadow row then
      match Indicators.atrAt 14 df i with
      | some a =>
        if 0 < a then
          let entry := row.c
          let sl := entry + sell_sl_mult * a
          let tp := entry - sell_tp_mult * a
          match Indicators.scan_exit df (fun r => decide (r.l ≤ tp))
              (fun r => decide (r.h ≥ sl)) (i + 1) 99 with
          | some (_, hitTp) =>
            some { isBuy := false, entry := entry,
                   profit := if hitTp then sell_tp_mult * a else -(sell_sl_mult * a),
                   hit_tp := hitTp }
          | none => none
        else none
      | none => none
    else none

/-- The trade list of `backtest_with_params`. -/
def backtest_with_params (buy_sl_mult buy_tp_mult sell_sl_mult sell_tp_mult
    max_lower_shadow min_upper_shadow : ℚ) (df : List Candle) : List OTrade :=
  (List.range df.length).filterMap
    (tradeAt buy_sl_mult buy_tp_mult sell_sl_mult sell_tp_mult
      max_lower_shadow min_upper_shadow df)

/-- `float('inf')` versus an ordinary float: the value a profit factor
can take in optimize_fixed.py. -/
inductive PF where
  | finite (q : ℚ)
  | posInf
deriving DecidableEq, Repr

/-- The aggregate fields of `backtest_with_params` the claims speak
about. -/
structure OStats where
  total_trades : ℕ
  win_rate : ℚ
  profit_factor : PF
  total_profit : ℚ
deriving DecidableEq, Repr

/-- The statistics block of `backtest_with_params`: the empty trade list
short-circuits to zeros; otherwise
`profit_factor = winners.sum / |losers.sum|` when there are losers with
a nonzero sum, else `float('inf')` when `total_profit > 0`, else 0. -/
def stats (trades : List OTrade) : OStats :=
  if trades.isEmpty then
    { total_trades := 0, win_rate := 0, profit_factor := PF.finite 0, total_profit := 0 }
  else
    let winners := trades.filter fun t => decide (0 < t.profit)
    let losers := trades.filter fun t => decide (t.profit ≤ 0)
    let wsum := (winners.map fun t => t.profit).sum
    let lsum := (losers.map fun t => t.profit).sum
    let total_profit := (trades.map fun t => t.profit).sum
    { total_trades := trades.length,
      win_rate := if 0 < trades.length then
          (winners.length : ℚ) / (trades.length : ℚ) * 100 else 0,
      profit_factor := if 0 < losers.length ∧ lsum ≠ 0 then PF.finite (wsum / |lsum|)
        else if 0 < total_profit then PF.posInf else PF.finite 0,
      total_profit := total_profit }

end OptimizeFixed

namespace FinalBot

/-- `CFG.max_lower_shadow_factor` of finalBot.py. -/
def max_lower_shadow_factor : ℚ := 0.4

/-- `CFG.min_upper_shadow_*` threshold of finalBot.py (the strict 2.5). -/
def min_upper_shadow_mult : ℚ := 2.5

/-- `CFG.buy_sl_mult`. -/
def buy_sl_mult : ℚ := 1

/-- `CFG.buy_tp_mult`. -/
def buy_tp_mult : ℚ := 1.5

/-- `CFG.sell_sl_mult`. -/
def sell_sl_mult : ℚ := 1.5

/-- `CFG.sell_tp_mult`. -/
def sell_tp_mult : ℚ := 3

/-- `is_bearish_hammer` of finalBot.py: the strict variant with the
doji rejection `if body < 0.0001: return False`. -/
def is_bearish_hammer (row : Candle) : Bool :=
  if row.c ≥ row.o then false
  else
    let body := row.o - row.c
    if body < 0.0001 then false
    else
      let upper_shadow := row.h - row.o
      let lower_shadow := row.c - row.l
      if lower_shadow > max_lower_shadow_factor * body then false
      else if upper_shadow < min_upper_shadow_mult * body then false
      else true

/-- `is_bullish_hammer` of finalBot.py: doji rejection, then
`upper_shadow` against the 0.4 factor and `lower_shadow` against the
2.5 threshold. -/
def is_bullish_hammer (row : Candle) : Bool :=
  if row.c ≤ row.o then false
  else
    let body := row.c - row.o
    if body < 0.0001 then false
    else
      let upper_shadow := row.h - row.c
      let lower_shadow := row.o - row.l
      if upper_shadow > max_lower_shadow_factor * body then false
      else if lower_shadow < min_upper_shadow_mult * body then false
      else true

/-- Classification by finalBot.py's detectors: `some true` = Bullish,
`some false` = Bearish, `none` = neither. -/
def classify (row : Candle) : Option Bool :=
  if is_bullish_hammer row then some true
  else if is_bearish_hammer row then some false
  else none

/-- `get_position_key`. -/
def get_position_key (instrument timeframe : String) : String :=
  instrument ++ "_" ++ timeframe

/-- `has_active_position`: membership of the key in the shared
`active_positions` table (modelled as the list of its keys). -/
def has_active_position (positions : List String) (instrument timeframe : String) : Bool :=
  positions.contains (get_position_key instrument timeframe)

/-- Python's `round` at a tie: half to even. -/
def roundHalfEven (q : ℚ) : ℤ :=
  if q - ⌊q⌋ < 1 / 2 then ⌊q⌋
  else if 1 / 2 < q - ⌊q⌋ then ⌊q⌋ + 1
  else if ⌊q⌋ % 2 = 0 then ⌊q⌋ else ⌊q⌋ + 1

/-- `round(q, prec)` over the rational model of the price. -/
def pyRound (q : ℚ) (prec : ℕ) : ℚ :=
  ((roundHalfEven (q * 10 ^ prec) : ℚ)) / 10 ^ prec

/-- `calculate_dynamic_sl_tp`: rounded SL/TP distances from the CFG
multiples, then the rounded SL/TP prices around the entry; returns
`(sl_price, tp_price, sl_distance, tp_distance)`. -/
def calculate_dynamic_sl_tp (entry atr : ℚ) (prec : ℕ) (isBuy : Bool) : ℚ × ℚ × ℚ × ℚ :=
  if isBuy then
    let sl_distance := pyRound (buy_sl_mult * atr) prec
    let tp_distance := pyRound (buy_tp_mult * atr) prec
    (pyRound (entry - sl_distance) prec, pyRound (entry + tp_distance) prec,
     sl_distance, tp_distance)
  else
    let sl_distance := pyRound (sell_sl_mult * atr) prec
    let tp_distance := pyRound (sell_tp_mult * atr) prec
    (pyRound (entry + sl_distance) prec, pyRound (entry - tp_distance) prec,
     sl_distance, tp_distance)

/-- `is_uptrend`: `row["close"] > row["EMA_lower"]`. -/
def is_uptrend (row : Candle) (ema_lower : ℚ) : Bool :=
  decide (ema_lower < row.c)

/-- `is_downtrend`: `row["close"] < row["EMA_upper"]`. -/
def is_downtrend (row : Candle) (ema_upper : ℚ) : Bool :=
  decide (row.c < ema_upper)

/-- An order the live loop submits (entry, rounded SL and TP). -/
structure Order where
  instrument : String
  timeframe : String
  isBuy : Bool
  entry : ℚ
  sl_price : ℚ
  tp_price : ℚ
deriving DecidableEq, Repr

/-- The signal-handling tail of one iteration of
`run_for_instrument_and_timeframe` over the last completed candle:
skip when a position for the key is active, otherwise test the bearish
then the bullish signal with its trend filter, compute SL/TP, sanity
check them against the entry, and on success place the order and record
the position (a successful placement adds the key to the table). -/
def process_signal (positions : List String) (instrument timeframe : String) (prec : ℕ)
    (last : Candle) (ema_lower ema_upper atr : ℚ) : List String × Option Order :=
  if has_active_position positions instrument timeframe then (positions, none)
  else if is_bearish_hammer last && is_downtrend last ema_upper then
    let entry := last.c
    let r := calculate_dynamic_sl_tp entry atr prec false
    if r.1 ≤ entry ∧ r.2.1 < entry then
      (get_position_key instrument timeframe :: positions,
       some { instrument := instrument, timeframe := timeframe, isBuy := false,
              entry := entry, sl_price := r.1, tp_price := r.2.1 })
    else (positions, none)
  else if is_bullish_hammer last && is_uptrend last ema_lower then
    let entry := last.c
    let r := calculate_dynamic_sl_tp entry atr prec true
    if r.1 < entry ∧ entry < r.2.1 then
      (get_position_key instrument timeframe :: positions,
       some { instrument := instrument, timeframe := timeframe, isBuy := true,
              entry := entry, sl_price := r.1, tp_price := r.2.1 })
    else (positions, none)
  else (positions, none)

end FinalBot

/-! ## Concrete frames used to exercise the engine -/

/-- A flat candle: no range, no body. -/
def flatCandle : Candle := { o := 100, h := 100, l := 100, c := 100, volume := 0 }

/-- A bullish hammer with a wide range (entry 102, ATR 5/14). -/
def exC100 : Candle := { o := 100, h := 102, l := 97, c := 102, volume := 0 }

/-- A second bullish hammer in a tight range that touches neither level of
the trade opened one candle earlier. -/
def exC101 : Candle := { o := 101.95, h := 102.15, l := 101.65, c := 102.15, volume := 0 }

/-- A wide bearish candle whose high pierces both open take-profits and
whose low also pierces the first trade's stop, closing below both
entries. -/
def exC102 : Candle := { o := 103, h := 103, l := 101, c := 101, volume := 0 }

/-- 100 flat warm-up candles, then two overlapping buy signals and the
candle that exits both. -/
def exDF : List Candle := List.replicate 100 flatCandle ++ [exC100, exC101, exC102]

/-- The trade `backtest_vectorized` opens at index 100 of `exDF`. -/
def exTrade1 : CheckAccuracy.Trade :=
  { entry_i := 100, entry := 102, exit_i := 102, exit_price := 101, isBuy := true,
    profit := -1, profit_pct := -50 / 51, hit_tp := true, sl := 1423 / 14, tp := 719 / 7,
    candles_held := 2 }

/-- A frame of flat candles only: every ATR window sums to zero. -/
def flatDF : List Candle := List.replicate 101 flatCandle

/-- A doji-like bullish row: positive body far below 0.0001. -/
def dojiRow : Candle := { o := 1, h := 1.00005, l := 0.9, c := 1.00005, volume := 0 }

/-- A single winning trade (for the statistics edge cases). -/
def winTrade : CheckAccuracy.Trade :=
  { entry_i := 100, entry := 10, exit_i := 101, exit_price := 15, isBuy := true,
    profit := 5, profit_pct := 50, hit_tp := true, sl := 9, tp := 15, candles_held := 1 }

/-- A frame whose single candle has `high < low` but whose header carries
every required column. -/
def badFrame : CheckAccuracy.Frame :=
  { cols := CheckAccuracy.required_cols,
    data := [{ o := 10, h := 5, l := 20, c := 10, volume := 0 }] }

/-- The reference EMA recurrence of the spec, with pandas' span
parametrisation `k = 2/(span+1)`: the series is seeded from the first
close and each later value is `close * k + prev * (1 - k)`. -/
def emaRecurrence (span : ℕ) (closes ema : List ℚ) : Prop :=
  ema.length = closes.length ∧
  ema.getD 0 0 = closes.getD 0 0 ∧
  ∀ i, i + 1 < closes.length →
    ema.getD (i + 1) 0 =
      closes.getD (i + 1) 0 * (2 / ((span : ℚ) + 1)) +
        ema.getD i 0 * (1 - 2 / ((span : ℚ) + 1))

/-! ## Characterizations of the pattern classifiers -/

theorem ca_bullish_iff (row : Candle) :
    CheckAccuracy.is_bullish_hammer row = true ↔
      row.o < row.c ∧ row.h - row.c ≤ 0.65 * (row.c - row.o) ∧
        1.5 * (row.c - row.o) ≤ row.o - row.l := by
  simp only [CheckAccuracy.is_bullish_hammer]
  split_ifs with h1 h2 h3
  · simp only [Bool.false_eq_true, false_iff]
    rintro ⟨hc, -, -⟩
    exact absurd hc (not_lt.mpr h1)
  · simp only [Bool.false_eq_true, false_iff]
    rintro ⟨-, hu, -⟩
    exact absurd h2 (not_lt.mpr hu)
  · simp only [Bool.false_eq_true, false_iff]
    rintro ⟨-, -, hl⟩
    exact absurd h3 (not_lt.mpr hl)
  · simp only [true_iff]
    exact ⟨not_le.mp h1, not_lt.mp h2, not_lt.mp h3⟩

theorem ca_bearish_iff (row : Candle) :
    CheckAccuracy.is_bearish_hammer row = true ↔
      row.c < row.o ∧ row.c - row.l ≤ 0.65 * (row.o - row.c) ∧
        1.5 * (row.o - row.c) ≤ row.h - row.o := by
  simp only [CheckAccuracy.is_bearish_hammer]
  split_ifs with h1 h2 h3
  · simp only [Bool.false_eq_true, false_iff]
    rintro ⟨hc, -, -⟩
    exact absurd hc (not_lt.mpr h1)
  · simp only [Bool.false_eq_true, false_iff]
    rintro ⟨-, hu, -⟩
    exact absurd h2 (not_lt.mpr hu)
  · simp only [Bool.false_eq_true, false_iff]
    rintro ⟨-, -, hl⟩
    exact absurd h3 (not_lt.mpr hl)
  · simp only [true_iff]
    exact ⟨not_le.mp h1, not_lt.mp h2, not_lt.mp h3⟩

theorem fb_bullish_iff (row : Candle) :
    FinalBot.is_bullish_hammer row = true ↔
      row.o < row.c ∧ 0.0001 ≤ row.c - row.o ∧
        row.h - row.c ≤ 0.4 * (row.c - row.o) ∧
        2.5 * (row.c - row.o) ≤ row.o - row.l := by
  simp only [FinalBot.is_bullish_hammer, FinalBot.max_lower_shadow_factor,
    FinalBot.min_upper_shadow_mult]
  split_ifs with h1 h2 h3 h4
  · simp only [Bool.false_eq_true, false_iff]
    rintro ⟨hc, -, -, -⟩
    exact absurd hc (not_lt.mpr h1)
  · simp only [Bool.false_eq_true, false_iff]
    rintro ⟨-, hb, -, -⟩
    exact absurd h2 (not_lt.mpr hb)
  · simp only [Bool.false_eq_true, false_iff]
    rintro ⟨-, -, hu, -⟩
    exact absurd h3 (not_lt.mpr hu)
  · simp only [Bool.false_eq_true, false_iff]
    rintro ⟨-, -, -, hl⟩
    exact absurd h4 (not_lt.mpr hl)
  · simp only [true_iff]
    exact ⟨not_le.mp h1, not_lt.mp h2, not_lt.mp h3, not_lt.mp h4⟩

theorem fb_bearish_iff (row : Candle) :
    FinalBot.is_bearish_hammer row = true ↔
      row.c < row.o ∧ 0.0001 ≤ row.o - row.c ∧
        row.c - row.l ≤ 0.4 * (row.o - row.c) ∧
        2.5 * (row.o - row.c) ≤ row.h - row.o := by
  simp only [FinalBot.is_bearish_hammer, FinalBot.max_lower_shadow_factor,
    FinalBot.min_upper_shadow_mult]
  split_ifs with h1 h2 h3 h4
  · simp only [Bool.false_eq_true, false_iff]
    rintro ⟨hc, -, -, -⟩
    exact absurd hc (not_lt.mpr h1)
  · simp only [Bool.false_eq_true, false_iff]
    rintro ⟨-, hb, -, -⟩
    exact absurd h2 (not_lt.mpr hb)
  · simp only [Bool.false_eq_true, false_iff]
    rintro ⟨-, -, hu, -⟩
    exact absurd h3 (not_lt.mpr hu)
  · simp only [Bool.false_eq_true, false_iff]
    rintro ⟨-, -, -, hl⟩
    exact absurd h4 (not_lt.mpr hl)
  · simp only [true_iff]
    exact ⟨not_le.mp h1, not_lt.mp h2, not_lt.mp h3, not_lt.mp h4⟩

theorem of_bullish_iff (mu ml : ℚ) (row : Candle) :
    OptimizeFixed.is_bullish_hammer mu ml row = true ↔
      row.o < row.c ∧ row.h - row.c ≤ mu * (row.c - row.o) ∧
        ml * (row.c - row.o) ≤ row.o - row.l := by
  simp only [OptimizeFixed.is_bullish_hammer]
  split_ifs with h1 h2 h3
  · simp only [Bool.false_eq_true, false_iff]
    rintro ⟨hc, -, -⟩
    exact absurd hc (not_lt.mpr h1)
  · simp only [Bool.false_eq_true, false_iff]
    rintro ⟨-, hu, -⟩
    exact absurd h2 (not_lt.mpr hu)
  · simp only [Bool.false_eq_true, false_iff]
    rintro ⟨-, -, hl⟩
    exact absurd h3 (not_lt.mpr hl)
  · simp only [true_iff]
    exact ⟨not_le.mp h1, not_lt.mp h2, not_lt.mp h3⟩

theorem of_bearish_iff (ml mu : ℚ) (row : Candle) :
    OptimizeFixed.is_bearish_hammer ml mu row = true ↔
      row.c < row.o ∧ row.c - row.l ≤ ml * (row.o - row.c) ∧
        mu * (row.o - row.c) ≤ row.h - row.o := by
  simp only [OptimizeFixed.is_bearish_hammer]
  split_ifs with h1 h2 h3
  · simp only [Bool.false_eq_true, false_iff]
    rintro ⟨hc, -, -⟩
    exact absurd hc (not_lt.mpr h1)
  · simp only [Bool.false_eq_true, false_iff]
    rintro ⟨-, hu, -⟩
    exact absurd h2 (not_lt.mpr hu)
  · simp only [Bool.false_eq_true, false_iff]
    rintro ⟨-, -, hl⟩
    exact absurd h3 (not_lt.mpr hl)
  · simp only [true_iff]
    exact ⟨not_le.mp h1, not_lt.mp h2, not_lt.mp h3⟩

/-! ## The forward scan takes the first touch, take-profit first -/

theorem scan_exit_spec (df : List Candle) (takeHit stopHit : Candle → Bool) :
    ∀ (fuel s j : ℕ) (b : Bool),
      Indicators.scan_exit df takeHit stopHit s fuel = some (j, b) →
      s ≤ j ∧ j < s + fuel ∧ j < df.length ∧
      (takeHit (df.getD j default) = true ∨ stopHit (df.getD j default) = true) ∧
      b = takeHit (df.getD j default) ∧
      ∀ m, s ≤ m → m < j →
        takeHit (df.getD m default) = false ∧ stopHit (df.getD m default) = false := by
  intro fuel
  induction fuel with
  | zero =>
    intro s j b hs
    simp [Indicators.scan_exit] at hs
  | succ fuel ih =>
    intro s j b hs
    rw [Indicators.scan_exit] at hs
    by_cases hlen : s < df.length
    · rw [if_pos hlen] at hs
      simp only [] at hs
      by_cases htk : takeHit (df.getD s default) = true
      · rw [if_pos htk] at hs
        obtain ⟨rfl, rfl⟩ : s = j ∧ true = b := by
          have := Option.some.inj hs
          exact ⟨congrArg Prod.fst this, congrArg Prod.snd this⟩
        refine ⟨le_refl _, by omega, hlen, Or.inl htk, htk.symm, ?_⟩
        intro m hm hm2
        omega
      · rw [if_neg htk] at hs
        by_cases hst : stopHit (df.getD s default) = true
        · rw [if_pos hst] at hs
          obtain ⟨rfl, rfl⟩ : s = j ∧ false = b := by
            have := Option.some.inj hs
            exact ⟨congrArg Prod.fst this, congrArg Prod.snd this⟩
          refine ⟨le_refl _, by omega, hlen, Or.inr hst, ?_, ?_⟩
          · exact (Bool.not_eq_true _ ▸ htk : takeHit (df.getD s default) = false).symm
          · intro m hm hm2
            omega
        · rw [if_neg hst] at hs
          obtain ⟨h1, h2, h3, h4, h5, h6⟩ := ih (s + 1) j b hs
          refine ⟨by omega, by omega, h3, h4, h5, ?_⟩
          intro m hm hm2
          rcases Nat.eq_or_lt_of_le hm with rfl | hm'
          · exact ⟨Bool.not_eq_true _ ▸ htk, Bool.not_eq_true _ ▸ hst⟩
          · exact h6 m hm' hm2
    · rw [if_neg hlen] at hs
      exact absurd hs (by simp)

theorem tradeAt_cases (u : Bool) (df : List Candle) (i : ℕ) (t : CheckAccuracy.Trade)
    (h : CheckAccuracy.tradeAt u df i = some t) :
    100 ≤ i ∧ t.entry_i = i ∧ t.entry = (df.getD i default).c ∧
    t.exit_price = (df.getD t.exit_i default).c ∧
    ((t.isBuy = true ∧
      Indicators.scan_exit df (fun r => decide (r.h ≥ t.tp)) (fun r => decide (r.l ≤ t.sl))
        (i + 1) 99 = some (t.exit_i, t.hit_tp) ∧
      t.profit =
        (if t.hit_tp = true then t.exit_price - t.entry else -(t.entry - t.exit_price))) ∨
     (t.isBuy = false ∧
      Indicators.scan_exit df (fun r => decide (r.l ≤ t.tp)) (fun r => decide (r.h ≥ t.sl))
        (i + 1) 99 = some (t.exit_i, t.hit_tp) ∧
      t.profit =
        (if t.hit_tp = true then t.entry - t.exit_price else -(t.exit_price - t.entry)))) := by
  simp only [CheckAccuracy.tradeAt] at h
  split at h
  · exact absurd h (by simp)
  · rename_i hi
    split at h
    · split at h
      · rename_i eidx hitTp heq
        rw [Option.some.injEq] at h
        subst h
        exact ⟨by omega, rfl, rfl, rfl, Or.inl ⟨rfl, heq, rfl⟩⟩
      · exact absurd h (by simp)
    · split at h
      · split at h
        · rename_i eidx hitTp heq
          rw [Option.some.injEq] at h
          subst h
          exact ⟨by omega, rfl, rfl, rfl, Or.inr ⟨rfl, heq, rfl⟩⟩
        · exact absurd h (by simp)
      · exact absurd h (by simp)

/-- C1: every trade of `backtest_vectorized` exits at the first row of the
forward window `df[i+1 .. i+99]` where the take-profit touch or the
stop-loss touch holds (for a buy: `high ≥ tp` or `low ≤ sl`; for a sell:
`low ≤ tp` or `high ≥ sl`); no earlier row of the window satisfies either
condition, and the recorded outcome is `hit_tp` exactly when the
take-profit touch holds at that row — so when both conditions hold in the
same first row the outcome is take-profit, because it is tested first. -/
theorem trade_exit_first_touch (u : Bool) (df : List Candle) (i : ℕ) (t : CheckAccuracy.Trade)
    (h : CheckAccuracy.tradeAt u df i = some t) :
    i + 1 ≤ t.exit_i ∧ t.exit_i < i + 100 ∧ t.exit_i < df.length ∧
    (t.isBuy = true →
      (t.tp ≤ (df.getD t.exit_i default).h ∨ (df.getD t.exit_i default).l ≤ t.sl) ∧
      (t.hit_tp = true ↔ t.tp ≤ (df.getD t.exit_i default).h) ∧
      ∀ m, i + 1 ≤ m → m < t.exit_i →
        ¬(t.tp ≤ (df.getD m default).h) ∧ ¬((df.getD m default).l ≤ t.sl)) ∧
    (t.isBuy = false →
      ((df.getD t.exit_i default).l ≤ t.tp ∨ t.sl ≤ (df.getD t.exit_i default).h) ∧
      (t.hit_tp = true ↔ (df.getD t.exit_i default).l ≤ t.tp) ∧
      ∀ m, i + 1 ≤ m → m < t.exit_i →
        ¬((df.getD m default).l ≤ t.tp) ∧ ¬(t.sl ≤ (df.getD m default).h)) := by
  obtain ⟨-, -, -, -, hcase⟩ := tradeAt_cases u df i t h
  rcases hcase with ⟨hbuy, hscan, -⟩ | ⟨hsell, hscan, -⟩
  · obtain ⟨h1, h2, h3, h4, h5, h6⟩ :=
      scan_exit_spec df (fun r => decide (r.h ≥ t.tp)) (fun r => decide (r.l ≤ t.sl))
        99 (i + 1) t.exit_i t.hit_tp hscan
    refine ⟨h1, by omega, h3, ?_, ?_⟩
    · intro _
      refine ⟨by simpa [ge_iff_le, decide_eq_true_eq] using h4, ?_, ?_⟩
      · rw [h5]
        simp [ge_iff_le]
      · intro m hm hm2
        have := h6 m hm hm2
        constructor
        · simpa [ge_iff_le] using this.1
        · simpa using this.2
    · intro hfalse
      rw [hbuy] at hfalse
      exact absurd hfalse (by simp)
  · obtain ⟨h1, h2, h3, h4, h5, h6⟩ :=
      scan_exit_spec df (fun r => decide (r.l ≤ t.tp)) (fun r => decide (r.h ≥ t.sl))
        99 (i + 1) t.exit_i t.hit_tp hscan
    refine ⟨h1, by omega, h3, ?_, ?_⟩
    · intro hfalse
      rw [hsell] at hfalse
      exact absurd hfalse (by simp)
    · intro _
      refine ⟨by simpa [ge_iff_le, decide_eq_true_eq] using h4, ?_, ?_⟩
      · rw [h5]
        simp
      · intro m hm hm2
        have := h6 m hm hm2
        constructor
        · simpa using this.1
        · simpa [ge_iff_le] using this.2

set_option maxRecDepth 100000 in
/-- Witness for C1 at `exDF`: the buy signal at index 100 exits at index
102, both the take-profit and the stop-loss touch hold at that exit row,
and the recorded outcome is `hit_tp = true`. -/
theorem trade_exit_first_touch_witness :
    (100 + 1 ≤ exTrade1.exit_i ∧ exTrade1.exit_i < 100 + 100) ∧
    (exTrade1.hit_tp = true ↔ exTrade1.tp ≤ (exDF.getD exTrade1.exit_i default).h) ∧
    (exDF.getD exTrade1.exit_i default).l ≤ exTrade1.sl ∧
    exTrade1.hit_tp = true :=
  have h := trade_exit_first_touch true exDF 100 exTrade1 (by with_unfolding_all rfl)
  ⟨⟨h.1, h.2.1⟩, (h.2.2.2.1 rfl).2.1, of_decide_eq_true (by with_unfolding_all rfl), rfl⟩

/-- C2 counterexample: `dojiRow` has a positive body of 1/20000, far below
the 0.0001 epsilon that finalBot.py uses, yet check_accuracy.py's
classifier returns Bullish for it — its classifier has no doji
rejection. finalBot.py's classifier rejects the same row. -/
theorem hammer_epsilon_counterexample :
    CheckAccuracy.is_bullish_hammer dojiRow = true ∧
    dojiRow.c - dojiRow.o < 0.0001 ∧
    FinalBot.is_bullish_hammer dojiRow = false :=
  ⟨by with_unfolding_all rfl, of_decide_eq_true (by with_unfolding_all rfl),
   by with_unfolding_all rfl⟩

/-- C2 amended: finalBot.py's classifier returns Bullish exactly when
`close > open`, `body = close - open ≥ 0.0001`,
`upper_shadow ≤ 0.4 × body` and `lower_shadow ≥ 2.5 × body`;
check_accuracy.py's classifier applies the analogous shadow conditions
with factors 0.65 and 1.5 but performs no epsilon/doji rejection. In
both, no row is classified both Bullish and Bearish, and when neither
condition set is met the classification is `None`. -/
theorem hammer_classifier_characterization :
    (∀ row : Candle,
      CheckAccuracy.is_bullish_hammer row = true ↔
        row.o < row.c ∧ row.h - row.c ≤ 0.65 * (row.c - row.o) ∧
          1.5 * (row.c - row.o) ≤ row.o - row.l) ∧
    (∀ row : Candle,
      FinalBot.is_bullish_hammer row = true ↔
        row.o < row.c ∧ 0.0001 ≤ row.c - row.o ∧
          row.h - row.c ≤ 0.4 * (row.c - row.o) ∧
          2.5 * (row.c - row.o) ≤ row.o - row.l) ∧
    (∀ row : Candle,
      ¬(CheckAccuracy.is_bullish_hammer row = true ∧
        CheckAccuracy.is_bearish_hammer row = true)) ∧
    (∀ row : Candle,
      ¬(FinalBot.is_bullish_hammer row = true ∧ FinalBot.is_bearish_hammer row = true)) ∧
    (∀ row : Candle, CheckAccuracy.is_bullish_hammer row = false →
      CheckAccuracy.is_bearish_hammer row = false → CheckAccuracy.classify row = none) ∧
    (∀ row : Candle, FinalBot.is_bullish_hammer row = false →
      FinalBot.is_bearish_hammer row = false → FinalBot.classify row = none) := by
  refine ⟨ca_bullish_iff, fb_bullish_iff, ?_, ?_, ?_, ?_⟩
  · rintro row ⟨hb, hr⟩
    have h1 := (ca_bullish_iff row).mp hb
    have h2 := (ca_bearish_iff row).mp hr
    linarith [h1.1, h2.1]
  · rintro row ⟨hb, hr⟩
    have h1 := (fb_bullish_iff row).mp hb
    have h2 := (fb_bearish_iff row).mp hr
    linarith [h1.1, h2.1]
  · intro row hb hr
    simp [CheckAccuracy.classify, hb, hr]
  · intro row hb hr
    simp [FinalBot.classify, hb, hr]

/-! ## Unwarmed or flat ATR generates no trade -/

theorem trAt_nonneg_of_pos (df : List Candle) (i : ℕ) (hi : i ≠ 0) :
    0 ≤ Indicators.trAt df i := by
  simp only [Indicators.trAt, if_neg hi]
  exact le_trans (abs_nonneg _) (le_trans (le_max_left _ _) (le_max_right _ _))

theorem trAt_pos_at_hammer (df : List Candle) (i : ℕ) (hi : i ≠ 0) (hlt : i < df.length)
    (hvalid : df.all validCandle = true)
    (hham : CheckAccuracy.is_bullish_hammer (df.getD i default) = true ∨
      CheckAccuracy.is_bearish_hammer (df.getD i default) = true) :
    0 < Indicators.trAt df i := by
  have hmem : df.getD i default ∈ df := by
    rw [List.getD_eq_getElem?_getD, List.getElem?_eq_getElem hlt]
    exact List.getElem_mem hlt
  have hv := List.all_eq_true.mp hvalid _ hmem
  simp only [validCandle, Bool.and_eq_true, decide_eq_true_eq] at hv
  obtain ⟨⟨⟨hlo, hlc⟩, hoh⟩, hch⟩ := hv
  have hrange : 0 < (df.getD i default).h - (df.getD i default).l := by
    rcases hham with hb | hb
    · have := (ca_bullish_iff _).mp hb
      linarith [this.1]
    · have := (ca_bearish_iff _).mp hb
      linarith [this.1]
  simp only [Indicators.trAt, if_neg hi]
  exact lt_of_lt_of_le hrange (le_max_left _ _)

theorem atrPos_at_hammer (df : List Candle) (i : ℕ) (hi : 100 ≤ i)
    (hlt : i < df.length) (hvalid : df.all validCandle = true)
    (hham : CheckAccuracy.is_bullish_hammer (df.getD i default) = true ∨
      CheckAccuracy.is_bearish_hammer (df.getD i default) = true) :
    Indicators.atrPos (Indicators.atrAt 14 df i) = true := by
  have hcond : ¬(i + 1 < 14) := by omega
  have hS : 0 < ((List.range 14).map fun j => Indicators.trAt df (i - j)).sum := by
    rw [List.range_succ_eq_map, List.map_cons, List.sum_cons, List.map_map]
    have h0 : 0 < Indicators.trAt df (i - 0) := by
      simpa using trAt_pos_at_hammer df i (by omega) hlt hvalid hham
    have hrest :
        0 ≤ ((List.range 13).map ((fun j => Indicators.trAt df (i - j)) ∘ Nat.succ)).sum := by
      apply List.sum_nonneg
      intro x hx
      obtain ⟨j, hj, rfl⟩ := List.mem_map.mp hx
      have hj13 : j < 13 := List.mem_range.mp hj
      exact trAt_nonneg_of_pos df _ (by omega)
    linarith
  simp only [Indicators.atrAt, if_neg hcond, Indicators.atrPos]
  rw [decide_eq_true_eq]
  exact div_pos hS (by norm_num)

/-- C3: a signal candle whose ATR is nonpositive, or still undefined
because the rolling window has not filled, generates no trade.
optimize_fixed.py skips it outright (`else: continue`), and
check_accuracy.py produces no trade at such a candle either, because on
well-formed candles every hammer row has a strictly positive ATR, so no
signal fires where the ATR test fails. -/
theorem atr_nonpositive_no_trade (bsl btp ssl stp mls mus : ℚ) (df : List Candle) (i : ℕ)
    (hatr : Indicators.atrPos (Indicators.atrAt 14 df i) = false)
    (hvalid : df.all validCandle = true) :
    OptimizeFixed.tradeAt bsl btp ssl stp mls mus df i = none ∧
    CheckAccuracy.tradeAt true df i = none := by
  constructor
  · simp only [OptimizeFixed.tradeAt]
    split
    · rfl
    · split
      · cases hA : Indicators.atrAt 14 df i with
        | none => rfl
        | some a =>
          have hn : ¬0 < a := by
            rw [hA] at hatr
            simpa [Indicators.atrPos] using hatr
          simp [hn]
      · split
        · cases hA : Indicators.atrAt 14 df i with
          | none => rfl
          | some a =>
            have hn : ¬0 < a := by
              rw [hA] at hatr
              simpa [Indicators.atrPos] using hatr
            simp [hn]
        · rfl
  · simp only [CheckAccuracy.tradeAt]
    split
    · rfl
    · rename_i hige
      have hnb : CheckAccuracy.is_bullish_hammer (df.getD i default) = false := by
        by_cases hlt : i < df.length
        · by_contra hx
          rw [Bool.not_eq_false] at hx
          have := atrPos_at_hammer df i (by omega) hlt hvalid (Or.inl hx)
          rw [this] at hatr
          cases hatr
        · rw [List.getD_eq_default _ _ (by omega)]
          with_unfolding_all rfl
      have hnr : CheckAccuracy.is_bearish_hammer (df.getD i default) = false := by
        by_cases hlt : i < df.length
        · by_contra hx
          rw [Bool.not_eq_false] at hx
          have := atrPos_at_hammer df i (by omega) hlt hvalid (Or.inr hx)
          rw [this] at hatr
          cases hatr
        · rw [List.getD_eq_default _ _ (by omega)]
          with_unfolding_all rfl
      split
      · rename_i hx
        rw [hnb] at hx
        exact absurd hx (by simp)
      · split
        · rename_i hx
          rw [hnr] at hx
          exact absurd hx (by simp)
        · rfl

set_option maxRecDepth 100000 in
/-- Witness for C3: 101 flat candles give ATR = 0 at index 100 (the ATR
test fails), and neither simulator produces a trade there. -/
theorem atr_nonpositive_no_trade_witness :
    Indicators.atrPos (Indicators.atrAt 14 flatDF 100) = false ∧
    OptimizeFixed.tradeAt 1 1.5 1.5 3 0.65 1.5 flatDF 100 = none ∧
    CheckAccuracy.tradeAt true flatDF 100 = none :=
  have h := atr_nonpositive_no_trade 1 1.5 1.5 3 0.65 1.5 flatDF 100
    (by with_unfolding_all rfl) (by with_unfolding_all rfl)
  ⟨by with_unfolding_all rfl, h.1, h.2⟩

/-! ## Position tracking: live mode guards, backtest does not -/

set_option maxRecDepth 100000 in
/-- C4 counterexample: `backtest_vectorized` opens a second trade at
index 101 of `exDF` while the trade opened at index 100 is still open
(both exit at index 102), so the backtest holds two simultaneously open
simulated trades for the same series. -/
theorem overlapping_trades_counterexample :
    ((CheckAccuracy.backtest_vectorized true exDF).map fun t => (t.entry_i, t.exit_i)) =
      [(100, 102), (101, 102)] ∧ 100 < 101 ∧ 101 < 102 :=
  ⟨by with_unfolding_all rfl, by omega, by omega⟩

/-- C4 amended: the one-open-trade-per-key invariant holds in live mode
only — `run_for_instrument_and_timeframe` checks `has_active_position`
before evaluating any signal, so while the instrument+timeframe key is
in the `active_positions` table no new order is produced and the table
is unchanged; `backtest_vectorized` performs no such check and can hold
several simultaneously open simulated trades. -/
theorem live_guard_blocks_new_orders (positions : List String)
    (instrument timeframe : String) (prec : ℕ) (last : Candle)
    (ema_lower ema_upper atr : ℚ)
    (hact : FinalBot.has_active_position positions instrument timeframe = true) :
    FinalBot.process_signal positions instrument timeframe prec last ema_lower ema_upper atr =
      (positions, none) := by
  simp [FinalBot.process_signal, hact]

/-- Witness for C4: with the key already recorded, the live step ignores
a fresh candle and places nothing. -/
theorem live_guard_blocks_new_orders_witness :
    FinalBot.process_signal [FinalBot.get_position_key ("BTC_USD") ("M5")]
      ("BTC_USD") ("M5") 2 flatCandle 0 0 1 =
      ([FinalBot.get_position_key ("BTC_USD") ("M5")], none) :=
  live_guard_blocks_new_orders _ _ _ _ _ _ _ _ (by with_unfolding_all rfl)

/-! ## Profit factor edge cases -/

theorem list_sum_nonpos (l : List ℚ) (h : ∀ x ∈ l, x ≤ 0) : l.sum ≤ 0 := by
  induction l with
  | nil => simp
  | cons x xs ih =>
    rw [List.sum_cons]
    have hx := h x (List.mem_cons_self _ _)
    have hxs := ih fun y hy => h y (List.mem_cons_of_mem _ hy)
    linarith

set_option maxRecDepth 100000 in
/-- C5 counterexample: a trade set with one winner and no loser, fed to
check_accuracy.py's aggregation, yields `profit_factor = 0` — not the
infinite/maximum sentinel the claim requires. -/
theorem profit_factor_zero_counterexample :
    (CheckAccuracy.stats [winTrade]).map CheckAccuracy.Stats.profit_factor = some 0 ∧
    ([winTrade].filter fun t => decide (0 < t.profit)).length = 1 ∧
    ([winTrade].filter fun t => decide (t.profit ≤ 0)).length = 0 :=
  ⟨by with_unfolding_all rfl, by with_unfolding_all rfl, by with_unfolding_all rfl⟩

/-- C5 amended: optimize_fixed.py's aggregation does behave as the claim
says — at least one winner and no loser gives `profit_factor =
float('inf')`, and no winner gives `profit_factor = 0`, with every
division guarded; check_accuracy.py instead returns 0 whenever there is
no loser, even with winners present (see the counterexample). -/
theorem profit_factor_sentinel (trades : List OptimizeFixed.OTrade) :
    ((trades ≠ [] ∧ ∀ t ∈ trades, 0 < t.profit) →
      (OptimizeFixed.stats trades).profit_factor = OptimizeFixed.PF.posInf) ∧
    ((∀ t ∈ trades, t.profit ≤ 0) →
      (OptimizeFixed.stats trades).profit_factor = OptimizeFixed.PF.finite 0) := by
  constructor
  · rintro ⟨hne, hpos⟩
    have hempty : ¬(trades.isEmpty = true) := by
      simpa [List.isEmpty_iff] using hne
    have hlose : (trades.filter fun t => decide (t.profit ≤ 0)) = [] := by
      rw [List.filter_eq_nil_iff]
      intro t ht
      simp only [decide_eq_true_eq, not_le]
      exact hpos t ht
    have hsum : 0 < (trades.map fun t => t.profit).sum := by
      apply List.sum_pos
      · intro x hx
        obtain ⟨t, ht, rfl⟩ := List.mem_map.mp hx
        exact hpos t ht
      · simpa [List.map_eq_nil_iff] using hne
    simp only [OptimizeFixed.stats]
    rw [if_neg hempty]
    simp only [hlose, List.length_nil]
    rw [if_neg (by simp), if_pos hsum]
  · intro hnp
    by_cases hempty : trades.isEmpty = true
    · simp [OptimizeFixed.stats, hempty]
    · have hwin : (trades.filter fun t => decide (0 < t.profit)) = [] := by
        rw [List.filter_eq_nil_iff]
        intro t ht
        simp only [decide_eq_true_eq, not_lt]
        exact hnp t ht
      have hts : (trades.map fun t => t.profit).sum ≤ 0 := by
        apply list_sum_nonpos
        intro x hx
        obtain ⟨t, ht, rfl⟩ := List.mem_map.mp hx
        exact hnp t ht
      simp only [OptimizeFixed.stats]
      rw [if_neg hempty]
      simp only [hwin, List.map_nil, List.sum_nil]
      split
      · rw [zero_div]
      · rw [if_neg (not_lt.mpr hts)]

/-- Witness for C5: the sentinel theorem applied to a one-winner set and
to a one-loser set. -/
theorem profit_factor_sentinel_witness :
    (OptimizeFixed.stats [{ isBuy := true, entry := 10, profit := 5, hit_tp := true }]).profit_factor =
      OptimizeFixed.PF.posInf ∧
    (OptimizeFixed.stats [{ isBuy := true, entry := 10, profit := -5, hit_tp := false }]).profit_factor =
      OptimizeFixed.PF.finite 0 :=
  ⟨(profit_factor_sentinel _).1
     ⟨by simp, by
        intro t ht
        rw [List.mem_singleton] at ht
        subst ht
        norm_num⟩,
   (profit_factor_sentinel _).2 (by
      intro t ht
      rw [List.mem_singleton] at ht
      subst ht
      norm_num)⟩

/-! ## Win and loss counts partition the trade set -/

theorem filter_profit_partition (trades : List CheckAccuracy.Trade) :
    (trades.filter fun t => decide (0 < t.profit)).length +
      (trades.filter fun t => decide (t.profit ≤ 0)).length = trades.length := by
  induction trades with
  | nil => rfl
  | cons t ts ih =>
    by_cases hp : 0 < t.profit
    · have hn : ¬t.profit ≤ 0 := not_le.mpr hp
      simp [List.filter_cons, hp, hn]
      omega
    · have hn : t.profit ≤ 0 := not_lt.mp hp
      simp [List.filter_cons, hp, hn]
      omega

/-- C6: for every non-empty trade set, check_accuracy.py's aggregation
satisfies `win_count + loss_count = total_trades` (winners are trades
with profit > 0, break-even trades count as losses) and
`win_rate = win_count / total_trades * 100` lies in `[0, 100]`. -/
theorem win_loss_partition (trades : List CheckAccuracy.Trade) (hne : trades ≠ []) :
    ∃ s, CheckAccuracy.stats trades = some s ∧
      s.win_count + s.loss_count = s.total_trades ∧ 0 ≤ s.win_rate ∧ s.win_rate ≤ 100 := by
  have hempty : ¬(trades.isEmpty = true) := by
    simpa [List.isEmpty_iff] using hne
  have hlen : 0 < trades.length := List.length_pos.mpr hne
  simp only [CheckAccuracy.stats]
  rw [if_neg hempty]
  refine ⟨_, rfl, ?_, ?_, ?_⟩
  · exact filter_profit_partition trades
  · simp only []
    rw [if_pos hlen]
    positivity
  · simp only []
    rw [if_pos hlen]
    have h1 : ((trades.filter fun t => decide (0 < t.profit)).length : ℚ) ≤
        (trades.length : ℚ) := by
      exact_mod_cast List.length_filter_le _ _
    have h2 : (0 : ℚ) < (trades.length : ℚ) := by exact_mod_cast hlen
    rw [div_mul_eq_mul_div, div_le_iff₀ h2]
    nlinarith

/-- Witness for C6 on the one-winner trade set. -/
theorem win_loss_partition_witness :
    ∃ s, CheckAccuracy.stats [winTrade] = some s ∧
      s.win_count + s.loss_count = s.total_trades ∧ 0 ≤ s.win_rate ∧ s.win_rate ≤ 100 :=
  win_loss_partition [winTrade] (by simp)

/-! ## The EMA recurrence -/

theorem ewmaAcc_length (k : ℚ) : ∀ (p : ℚ) (xs : List ℚ),
    (Indicators.ewmaAcc k p xs).length = xs.length := by
  intro p xs
  induction xs generalizing p with
  | nil => rfl
  | cons x xs ih => simp [Indicators.ewmaAcc, ih]

theorem ewma_length (k : ℚ) (xs : List ℚ) :
    (Indicators.ewma k xs).length = xs.length := by
  cases xs with
  | nil => rfl
  | cons x xs => simp [Indicators.ewma, ewmaAcc_length]

theorem ewmaAcc_getD_succ (k : ℚ) :
    ∀ (xs : List ℚ) (p : ℚ) (i : ℕ), i + 1 < xs.length →
      (Indicators.ewmaAcc k p xs).getD (i + 1) 0 =
        xs.getD (i + 1) 0 * k + (Indicators.ewmaAcc k p xs).getD i 0 * (1 - k) := by
  intro xs
  induction xs with
  | nil =>
    intro p i hlen
    simp at hlen
  | cons x xs ih =>
    intro p i hlen
    cases i with
    | zero =>
      cases xs with
      | nil => simp at hlen
      | cons z zs =>
        simp [Indicators.ewmaAcc]
    | succ i =>
      have h2 : i + 1 < xs.length := by
        simpa using hlen
      simp only [Indicators.ewmaAcc, List.getD_cons_succ]
      exact ih _ i h2

theorem ewma_recurrence_of_span (span : ℕ) (xs : List ℚ) :
    emaRecurrence span xs (Indicators.emaSpan span xs) := by
  cases xs with
  | nil => exact ⟨rfl, rfl, fun i hi => by simp at hi⟩
  | cons x xs =>
    refine ⟨by simp [Indicators.emaSpan, Indicators.ewma, ewmaAcc_length], rfl, ?_⟩
    intro i hi
    cases i with
    | zero =>
      cases xs with
      | nil => simp at hi
      | cons z zs =>
        simp [Indicators.emaSpan, Indicators.ewma, Indicators.ewmaAcc]
    | succ i =>
      have h2 : i + 1 < xs.length := by simpa using hi
      simp only [Indicators.emaSpan, Indicators.ewma, List.getD_cons_succ]
      exact ewmaAcc_getD_succ _ xs x i h2

/-- C7: both EMA outputs of `compute_emas` satisfy the reference
recurrence `ema[0] = close[0]`, `ema[i] = close[i] * k + ema[i-1] * (1-k)`
with `k = 2/(period+1)`, each computed independently over the same close
series. -/
theorem compute_emas_recurrence (df : List Candle) (fast slow : ℕ) :
    emaRecurrence fast (df.map Candle.c) (Indicators.compute_emas fast slow df).1 ∧
    emaRecurrence slow (df.map Candle.c) (Indicators.compute_emas fast slow df).2 :=
  ⟨ewma_recurrence_of_span fast (df.map Candle.c),
   ewma_recurrence_of_span slow (df.map Candle.c)⟩

/-! ## Recomputation on a longer series preserves the prefix -/

theorem ewmaAcc_prefix (k : ℚ) : ∀ (xs ys : List ℚ) (p : ℚ),
    (Indicators.ewmaAcc k p (xs ++ ys)).take xs.length = Indicators.ewmaAcc k p xs := by
  intro xs
  induction xs with
  | nil =>
    intro ys p
    simp [Indicators.ewmaAcc]
  | cons x xs ih =>
    intro ys p
    simp [Indicators.ewmaAcc, ih]

theorem ewma_prefix (k : ℚ) (xs ys : List ℚ) :
    (Indicators.ewma k (xs ++ ys)).take xs.length = Indicators.ewma k xs := by
  cases xs with
  | nil => simp [Indicators.ewma]
  | cons x xs =>
    simp [Indicators.ewma, Indicators.ewmaAcc, ewmaAcc_prefix]

theorem trAt_prefix (s t : List Candle) (i : ℕ) (hi : i < s.length) :
    Indicators.trAt (s ++ t) i = Indicators.trAt s i := by
  simp only [Indicators.trAt]
  by_cases h0 : i = 0
  · subst h0
    rw [if_pos rfl, if_pos rfl, List.getD_append _ _ _ _ hi]
  · rw [if_neg h0, if_neg h0, List.getD_append _ _ _ _ hi,
      List.getD_append _ _ _ _ (by omega)]

theorem atrAt_prefix (period : ℕ) (s t : List Candle) (i : ℕ) (hi : i < s.length) :
    Indicators.atrAt period (s ++ t) i = Indicators.atrAt period s i := by
  simp only [Indicators.atrAt]
  by_cases hc : i + 1 < period
  · rw [if_pos hc, if_pos hc]
  · rw [if_neg hc, if_neg hc]
    have hmap : ((List.range period).map fun j => Indicators.trAt (s ++ t) (i - j)) =
        (List.range period).map fun j => Indicators.trAt s (i - j) := by
      apply List.map_congr_left
      intro j _
      exact trAt_prefix s t (i - j) (by omega)
    rw [hmap]

theorem trSeries_prefix (s t : List Candle) :
    (Indicators.trSeries (s ++ t)).take s.length = Indicators.trSeries s := by
  simp only [Indicators.trSeries, List.length_append]
  rw [← List.map_take, List.take_range, min_eq_left (Nat.le_add_right _ _)]
  apply List.map_congr_left
  intro i hi
  exact trAt_prefix s t i (List.mem_range.mp hi)

theorem atrSeries_prefix (period : ℕ) (s t : List Candle) :
    (Indicators.atrSeries period (s ++ t)).take s.length = Indicators.atrSeries period s := by
  simp only [Indicators.atrSeries, List.length_append]
  rw [← List.map_take, List.take_range, min_eq_left (Nat.le_add_right _ _)]
  apply List.map_congr_left
  intro i hi
  exact atrAt_prefix period s t i (List.mem_range.mp hi)

/-- C8: extending a candle sequence by later candles changes no indicator
value on the overlapping prefix — the fast EMA, the slow EMA, the true
range and the ATR recomputed on `s ++ t` agree with the values computed
on `s` alone at every index of `s`. -/
theorem indicator_prefix_stability (s t : List Candle) (fast slow period : ℕ) :
    (Indicators.compute_emas fast slow (s ++ t)).1.take s.length =
      (Indicators.compute_emas fast slow s).1 ∧
    (Indicators.compute_emas fast slow (s ++ t)).2.take s.length =
      (Indicators.compute_emas fast slow s).2 ∧
    (Indicators.trSeries (s ++ t)).take s.length = Indicators.trSeries s ∧
    (Indicators.atrSeries period (s ++ t)).take s.length =
      Indicators.atrSeries period s := by
  refine ⟨?_, ?_, trSeries_prefix s t, atrSeries_prefix period s t⟩
  · simp only [Indicators.compute_emas, Indicators.emaSpan, List.map_append]
    have h := ewma_prefix (2 / ((fast : ℚ) + 1)) (s.map Candle.c) (t.map Candle.c)
    simpa using h
  · simp only [Indicators.compute_emas, Indicators.emaSpan, List.map_append]
    have h := ewma_prefix (2 / ((slow : ℚ) + 1)) (s.map Candle.c) (t.map Candle.c)
    simpa using h

/-! ## Input validation: only the column check exists -/

/-- C9 amended: the only input validation `backtest_vectorized` performs
before computing is the required-columns check — a frame missing one of
`open, high, low, close, volume` is rejected with the `ValueError`, and
any frame carrying all five columns is processed in full, with no check
of timestamp monotonicity or of `high ≥ low`. -/
theorem column_check_gate (use_atr : Bool) (f : CheckAccuracy.Frame) :
    ((CheckAccuracy.required_cols.all fun col => f.cols.contains col) = false →
      CheckAccuracy.backtest_checked use_atr f =
        Except.error ("Missing required columns")) ∧
    ((CheckAccuracy.required_cols.all fun col => f.cols.contains col) = true →
      CheckAccuracy.backtest_checked use_atr f =
        Except.ok (CheckAccuracy.backtest_vectorized use_atr f.data)) := by
  constructor
  · intro hmiss
    rw [CheckAccuracy.backtest_checked, if_neg (by rw [hmiss]; simp)]
  · intro hall
    rw [CheckAccuracy.backtest_checked, if_pos hall]

/-- C9 counterexample: a frame with every required column whose single
candle has `high < low` is not rejected — the backtest processes it and
returns normally instead of raising a data error. -/
theorem high_low_not_validated_counterexample :
    (badFrame.data.getD 0 default).h < (badFrame.data.getD 0 default).l ∧
    CheckAccuracy.backtest_checked true badFrame = Except.ok [] :=
  ⟨of_decide_eq_true (by with_unfolding_all rfl), by with_unfolding_all rfl⟩

/-- Witness for C9: the gate theorem applied to a frame without the
volume column and to `badFrame`, which carries all columns. -/
theorem column_check_gate_witness :
    CheckAccuracy.backtest_checked true
      { cols := ["open", "high", "low", "close"], data := [] } =
        Except.error ("Missing required columns") ∧
    CheckAccuracy.backtest_checked true badFrame =
      Except.ok (CheckAccuracy.backtest_vectorized true badFrame.data) :=
  ⟨(column_check_gate true _).1 (by with_unfolding_all rfl),
   (column_check_gate true badFrame).2 (by with_unfolding_all rfl)⟩

/-! ## Price-based profit is the close-to-close delta -/

theorem tradeAt_profit_close_delta (u : Bool) (df : List Candle) (i : ℕ)
    (t : CheckAccuracy.Trade) (h : CheckAccuracy.tradeAt u df i = some t) :
    (t.isBuy = true → t.profit = (df.getD t.exit_i default).c - t.entry) ∧
    (t.isBuy = false → t.profit = t.entry - (df.getD t.exit_i default).c) := by
  obtain ⟨-, -, -, hexit, hcase⟩ := tradeAt_cases u df i t h
  rcases hcase with ⟨hbuy, -, hprofit⟩ | ⟨hsell, -, hprofit⟩
  · constructor
    · intro _
      rw [hprofit, hexit]
      cases ht : t.hit_tp
      · rw [if_neg (by simp)]
        ring
      · rw [if_pos rfl]
    · intro hfalse
      rw [hbuy] at hfalse
      exact absurd hfalse (by simp)
  · constructor
    · intro htrue
      rw [hsell] at htrue
      exact absurd htrue (by simp)
    · intro _
      rw [hprofit, hexit]
      cases ht : t.hit_tp
      · rw [if_neg (by simp)]
        ring
      · rw [if_pos rfl]

set_option maxRecDepth 100000 in
/-- C10: in check_accuracy.py's price-based profit mode every trade's
realized profit is the signed close-to-close delta — the close of the
exit candle minus the entry for a buy, and the entry minus the exit
close for a sell — in the HitTakeProfit and the HitStopLoss branch
alike, never the touched stop or take level; consequently a trade can be
recorded as a take-profit hit with a nonpositive profit, as happens on
`exDF`. -/
theorem price_mode_profit_close_based :
    (∀ (u : Bool) (df : List Candle) (t : CheckAccuracy.Trade),
      t ∈ CheckAccuracy.backtest_vectorized u df →
      (t.isBuy = true → t.profit = (df.getD t.exit_i default).c - t.entry) ∧
      (t.isBuy = false → t.profit = t.entry - (df.getD t.exit_i default).c)) ∧
    (CheckAccuracy.backtest_vectorized true exDF).any
      (fun t => t.hit_tp && decide (t.profit ≤ 0)) = true := by
  constructor
  · intro u df t ht
    obtain ⟨i, -, hi⟩ := List.mem_filterMap.mp ht
    exact tradeAt_profit_close_delta u df i t hi
  · with_unfolding_all rfl

set_option maxRecDepth 100000 in
/-- Witness for C10's universal part at the concrete trade of `exDF`. -/
theorem price_mode_profit_close_based_witness :
    exTrade1.isBuy = true ∧
    (exTrade1.isBuy = true →
      exTrade1.profit = (exDF.getD exTrade1.exit_i default).c - exTrade1.entry) :=
  ⟨rfl,
   (price_mode_profit_close_based.1 true exDF exTrade1
      (of_decide_eq_true (by with_unfolding_all rfl) :
        exTrade1 ∈ CheckAccuracy.backtest_vectorized true exDF)).1⟩
